import Mathlib

/-!
Verification of the call-site pattern extractor and its supporting helpers
from the `snippets` repository (three JavaScript batch scripts).

JavaScript strings are modelled as `List Char`; the relevant JS string
primitives (`indexOf`, `substring`, `split`, `trim`, `charAt`, regex-free
`replace` forms) are embedded below with JS semantics (`indexOf` returning
-1 is modelled via `Option`/`Int`, out-of-range element access via
`Option`).  The line-by-line scanner `extractStreamPatterns` of
`src/unnamed/part_001` (lines 83-181) is embedded statement by statement;
the comment-stripping preprocessing of `src/extract-banner-ids.js`
(lines 49-51, identical in `src/unnamed/part_000`) and the CSV/report
helpers are embedded as well.
-/

/-- Whitespace as recognised by JS `trim` / `\s` (ASCII range, which covers
all inputs considered here): space, tab, newline, carriage return,
vertical tab and form feed. -/
def isJsSpace (c : Char) : Bool :=
  c == ' ' || c == '\t' || c == '\n' || c == '\r' || c == '\x0b' || c == '\x0c'

/-- JS `String.prototype.trim`: drop leading and trailing whitespace. -/
def jsTrim (l : List Char) : List Char :=
  ((l.dropWhile isJsSpace).reverse.dropWhile isJsSpace).reverse

/-- `pat` occurs at the head of `l` (substring anchor test used by `indexOf`). -/
def leadsWith : List Char → List Char → Bool
  | [], _ => true
  | _ :: _, [] => false
  | p :: ps, c :: cs => p == c && leadsWith ps cs

/-- Scan `l` from the left, returning the index (offset by `i`) of the first
position where `pat` starts. -/
def jsIndexOfAux (pat : List Char) : List Char → Nat → Option Nat
  | [], i => if pat.isEmpty then some i else none
  | c :: rest, i =>
    if leadsWith pat (c :: rest) then some i else jsIndexOfAux pat rest (i + 1)

/-- JS `s.indexOf(pat, start)`, with `none` standing for JS `-1`. -/
def jsIndexOfFrom (l pat : List Char) (start : Nat) : Option Nat :=
  jsIndexOfAux pat (l.drop start) start

/-- JS `s.indexOf(c)` for a single character, returning the JS `-1` as `Int`
(this mirrors the `Math.max(indexOf, indexOf)` arithmetic in the source). -/
def jsIndexOfInt (l : List Char) (c : Char) : Int :=
  match jsIndexOfFrom l [c] 0 with
  | some n => (n : Int)
  | none => -1

/-- JS `s.substring(a, b)` for `a ≤ b` (the only way it is used here). -/
def sliceList (l : List Char) (a b : Nat) : List Char :=
  (l.take b).drop a

/-- JS `s.split(sep)` for a single-character separator: every occurrence of
`sep` separates segments, empty segments included; `""` splits to `[""]`. -/
def splitOnChar (sep : Char) : List Char → List (List Char)
  | [] => [[]]
  | c :: rest =>
    match splitOnChar sep rest with
    | [] => [[]]
    | h :: t => if c == sep then [] :: h :: t else (c :: h) :: t

/-- One recognized call-site occurrence, exactly the object pushed by
`extractStreamPatterns` in `src/unnamed/part_001` (lines 163-169):
`a` is the translation key, `b` the alert container, `c` the alert type. -/
structure Pattern where
  a : List Char
  b : List Char
  c : List Char
  lineNumber : Nat
  fullMatch : List Char
deriving DecidableEq, Repr

/-- The literal substring `'.stream('` searched for on each line. -/
def streamNeedle : List Char := ".stream(".data

/-- The literal substring `'.setAlert('` searched for in the lookahead window. -/
def setAlertNeedle : List Char := ".setAlert(".data

/-- Lines 100-115 of `src/unnamed/part_001`: look for the first `'` in the
rest of the line after `.stream(`; if there is none, look for the first `"`;
the translation key is the text up to the next occurrence of the same quote. -/
def extractTranslationKey (afterStream : List Char) : Option (List Char) :=
  let search :=
    match jsIndexOfFrom afterStream ['\''] 0 with
    | some q => some (q, '\'')
    | none =>
      match jsIndexOfFrom afterStream ['"'] 0 with
      | some q => some (q, '"')
      | none => none
  match search with
  | none => none
  | some (quoteStart, quoteChar) =>
    match jsIndexOfFrom afterStream [quoteChar] (quoteStart + 1) with
    | none => none
    | some quoteEnd => some (sliceList afterStream (quoteStart + 1) quoteEnd)

/-- Lines 124-173 of `src/unnamed/part_001`: parse one line for a
`.setAlert(` call.  The argument text is split on every comma (the source's
naive split); at least 5 fragments are required; the 3rd fragment must
contain a completed quoted literal (quote selected by
`Math.max(indexOf('\''), indexOf('"'))`); the 5th fragment is trimmed and
stripped of `)` and `;`.  Returns `(alertContainer, alertType)` only when
both are non-empty (the JS truthiness test `alertContainer && alertType`);
in every other case the source does not `break`, so scanning continues. -/
def parseSetAlertLine (searchLine : List Char) : Option (List Char × List Char) :=
  match jsIndexOfFrom searchLine setAlertNeedle 0 with
  | none => none
  | some setAlertIndex =>
    let afterSetAlert := searchLine.drop setAlertIndex
    let paramText :=
      match jsIndexOfFrom afterSetAlert ['('] 0 with
      | some p => afterSetAlert.drop (p + 1)
      | none => afterSetAlert
    let parts := splitOnChar ',' paramText
    if parts.length ≥ 5 then
      let alertContainer : Option (List Char) :=
        match parts[2]? with
        | none => none
        | some part3 =>
          if part3 = [] then none
          else
            let param3 := jsTrim part3
            let quote3Start := max (jsIndexOfInt param3 '\'') (jsIndexOfInt param3 '"')
            if quote3Start = -1 then none
            else
              let quote3Char := param3.getD quote3Start.toNat ' '
              match jsIndexOfFrom param3 [quote3Char] (quote3Start.toNat + 1) with
              | none => none
              | some quote3End =>
                some (sliceList param3 (quote3Start.toNat + 1) quote3End)
      let alertType : Option (List Char) :=
        match parts[4]? with
        | none => none
        | some part5 =>
          if part5 = [] then none
          else
            let t1 := jsTrim part5
            let t2 := t1.filter (fun ch => !(ch == ')' || ch == ';'))
            some (jsTrim t2)
      match alertContainer, alertType with
      | some bv, some cv => if bv ≠ [] ∧ cv ≠ [] then some (bv, cv) else none
      | _, _ => none
    else none

/-- The inner lookahead loop (lines 121-175 of `src/unnamed/part_001`):
`for (let j = i; j < Math.min(i + 20, lines.length); j++)`, stopping at the
first line whose `.setAlert(` call parses completely.  `rem` counts the
remaining iterations. -/
def findAlertAux (lines : List (List Char)) : Nat → Nat → Option (List Char × List Char)
  | _, 0 => none
  | j, rem + 1 =>
    match parseSetAlertLine (lines.getD j []) with
    | some r => some r
    | none => findAlertAux lines (j + 1) rem

/-- Search the bounded window of lines `i, i+1, …, min(i+20, lines.length)-1`. -/
def findAlert (lines : List (List Char)) (i : Nat) : Option (List Char × List Char) :=
  findAlertAux lines i (min (i + 20) lines.length - i)

/-- The `fullMatch` string built on line 168 of `src/unnamed/part_001`. -/
def mkFullMatch (tk bv cv : List Char) : List Char :=
  "stream(".data ++ tk ++ ") -> setAlert(..., ".data ++ bv ++ ", ..., ".data ++ cv ++ ")".data

/-- The body of one iteration of the outer loop of `extractStreamPatterns`
(`src/unnamed/part_001` lines 87-177): on line `i` (0-based), require
`.stream(`, extract a truthy translation key from the rest of that line,
then search the lookahead window for a parsable `.setAlert(`; on success
produce the pattern record with 1-based `lineNumber = i + 1`. -/
def lineRecord (lines : List (List Char)) (i : Nat) : Option Pattern :=
  let line := lines.getD i []
  match jsIndexOfFrom line streamNeedle 0 with
  | none => none
  | some streamIndex =>
    let afterStream := line.drop streamIndex
    match extractTranslationKey afterStream with
    | none => none
    | some tk =>
      if tk ≠ [] then
        match findAlert lines i with
        | some (bv, cv) =>
          some { a := tk, b := bv, c := cv, lineNumber := i + 1
                 fullMatch := mkFullMatch tk bv cv }
        | none => none
      else none

/-- The outer loop of `extractStreamPatterns`, iterating `fuel` lines
starting at index `i` and pushing the per-line records in order. -/
def extractFrom (lines : List (List Char)) : Nat → Nat → List Pattern
  | _, 0 => []
  | i, fuel + 1 =>
    (match lineRecord lines i with
     | some p => [p]
     | none => []) ++ extractFrom lines (i + 1) fuel

/-- The lines of a document: JS `content.split('\n')`. -/
def docLines (content : List Char) : List (List Char) :=
  splitOnChar '\n' content

/-- `extractStreamPatterns` of `src/unnamed/part_001` (lines 83-181): split
the content into lines and run the scanner over every line. -/
def extractStreamPatterns (content : List Char) : List Pattern :=
  let lines := docLines content
  extractFrom lines 0 lines.length

/-- Abbreviation used in statements: a JS string literal as a char list. -/
def strToL (s : String) : List Char := s.data

/-! ## Comment stripping (`src/extract-banner-ids.js` lines 49-51, identical
in `src/unnamed/part_000` lines 49-51) -/

/-- `content.replace(/\/\*[\s\S]*?\*\//g, '')`: repeatedly remove the text
from each `/*` to the nearest following `*/`; an unterminated `/*` is left
in place (the regex then has no further match).  `fuel` only bounds the
recursion; it starts at the content length, which the ≥ 4 characters removed
per step can never exhaust. -/
def stripBlockAux : Nat → List Char → List Char
  | 0, l => l
  | fuel + 1, l =>
    match jsIndexOfFrom l ['/', '*'] 0 with
    | none => l
    | some k =>
      match jsIndexOfFrom l ['*', '/'] (k + 2) with
      | none => l
      | some m => l.take k ++ stripBlockAux fuel (l.drop (m + 2))

/-- Remove all block comments, as the first `replace` of the source does. -/
def stripBlockComments (l : List Char) : List Char :=
  stripBlockAux l.length l

/-- `content.replace(/\/\/.*$/gm, '')`: on every line, remove the text from
the first `//` to the end of the line. -/
def stripLineComments (l : List Char) : List Char :=
  List.intercalate ['\n'] ((splitOnChar '\n' l).map (fun line =>
    match jsIndexOfFrom line ['/', '/'] 0 with
    | none => line
    | some k => line.take k))

/-- The `cleanContent` preprocessing of the two regex-based extractors:
block comments removed first, then line comments. -/
def stripComments (l : List Char) : List Char :=
  stripLineComments (stripBlockComments l)

/-! ## Translation dictionary flattening (`flattenTranslationKeys`,
`src/unnamed/part_001` lines 38-58, identical in the other two files) -/

/-- A parsed JSON value, as classified by the source's
`typeof v === 'object' && v !== null && !Array.isArray(v)` test. -/
inductive Json where
  | str : String → Json
  | num : Int → Json
  | bool : Bool → Json
  | null : Json
  | arr : List Json → Json
  | obj : List (String × Json) → Json

/-- JS object property write `result[k] = v`: an existing key is updated in
place, a new key is appended (JS property insertion order). -/
def objAssign : List (String × Json) → String → Json → List (String × Json)
  | [], k, v => [(k, v)]
  | (k', v') :: rest, k, v =>
    if k' = k then (k', v) :: rest else (k', v') :: objAssign rest k v

/-- JS object property read `o[k]`, `none` standing for `undefined`. -/
def objGet : List (String × Json) → String → Option Json
  | [], _ => none
  | (k', v') :: rest, k => if k' = k then some v' else objGet rest k

/-- `flattenTranslationKeys(obj, prefix, result)` over the field list of a
JSON object: nested non-null non-array objects are recursed into with the
key dot-appended to the prefix; every other value (strings, numbers,
booleans, `null`, and arrays) is stored as a leaf under the full dotted
key. -/
def flattenTranslationKeys :
    List (String × Json) → String → List (String × Json) → List (String × Json)
  | [], _, result => result
  | (key, v) :: rest, pre, result =>
    let newKey := if pre ≠ "" then pre ++ "." ++ key else key
    match v with
    | Json.obj fs => flattenTranslationKeys rest pre (flattenTranslationKeys fs newKey result)
    | _ => flattenTranslationKeys rest pre (objAssign result newKey v)

/-! ## Dictionary join (`extractAndMatchPatterns`,
`src/unnamed/part_001` lines 230-243) -/

/-- JS truthiness of a JSON value: `''`, `0`, `false` and `null` are falsy;
every other value (including `[]` and `{}`) is truthy. -/
def jsTruthy : Json → Bool
  | .str s => s ≠ ""
  | .num n => n ≠ 0
  | .bool b => b
  | .null => false
  | .arr _ => true
  | .obj _ => true

/-- A `CallSitePattern` joined with its dictionary lookup outcome, exactly
the object pushed on lines 234-243 of `src/unnamed/part_001`. -/
structure AnalysisRecord where
  translationKey : String
  translationValue : Option Json
  alertContainer : String
  alertType : String
  filePath : String
  lineNumber : Nat
  fullPattern : String
  hasTranslation : Bool

/-- Lines 232-243 of `src/unnamed/part_001`:
`translationValue = translations[pattern.a] || null` (so a missing key and a
falsy looked-up value both give `null`), and
`hasTranslation = translationValue !== null`. -/
def mkAnalysisRecord (translations : List (String × Json)) (p : Pattern)
    (filePath : String) : AnalysisRecord :=
  let translationValue : Option Json :=
    match objGet translations (String.mk p.a) with
    | some v => if jsTruthy v then some v else none
    | none => none
  { translationKey := String.mk p.a
    translationValue := translationValue
    alertContainer := String.mk p.b
    alertType := String.mk p.c
    filePath := filePath
    lineNumber := p.lineNumber
    fullPattern := String.mk p.fullMatch
    hasTranslation := translationValue.isSome }

/-! ## CSV escaping (`escapeCsvValue`, `src/unnamed/part_001` lines 184-194)
and the raw CSV row of `src/extract-banner-ids.js` line 362 -/

/-- `stringValue.replace(/\r?\n/g, ' ')`: every `\r\n` pair and every lone
`\n` becomes one space; a `\r` not followed by `\n` is kept. -/
def replaceCrLf : List Char → List Char
  | [] => []
  | '\r' :: '\n' :: rest => ' ' :: replaceCrLf rest
  | '\n' :: rest => ' ' :: replaceCrLf rest
  | ch :: rest => ch :: replaceCrLf rest

/-- `.replace(/\s+/g, ' ')`: each maximal run of whitespace becomes one
space.  `inRun` records whether the previous character was whitespace. -/
def collapseWsAux : Bool → List Char → List Char
  | _, [] => []
  | inRun, ch :: rest =>
    if isJsSpace ch then
      if inRun then collapseWsAux true rest
      else ' ' :: collapseWsAux true rest
    else ch :: collapseWsAux false rest

/-- Collapse whitespace runs to single spaces. -/
def collapseWs (l : List Char) : List Char :=
  collapseWsAux false l

/-- The `cleanValue` pipeline of `escapeCsvValue`. -/
def csvCleanValue (s : List Char) : List Char :=
  jsTrim (collapseWs (replaceCrLf s))

/-- `cleanValue.replace(/"/g, '""')`: double every double-quote. -/
def doubleQuotes (l : List Char) : List Char :=
  l.flatMap (fun ch => if ch == '"' then ['"', '"'] else [ch])

/-- `escapeCsvValue` of `src/unnamed/part_001` (lines 184-194): `null` or
`undefined` becomes the empty string; otherwise newlines are replaced,
whitespace runs collapsed, the value trimmed, internal double-quotes
doubled, and the result wrapped in double-quotes. -/
def escapeCsvValue (value : Option (List Char)) : List Char :=
  match value with
  | none => []
  | some s => '"' :: doubleQuotes (csvCleanValue s) ++ ['"']

/-- A quoted CSV field as written by the template literal on line 362 of
`src/extract-banner-ids.js` (`"${pattern.translationKey}","${value}",…`):
the raw value between literal double-quotes, with no escaping. -/
def bannerCsvField (s : List Char) : List Char :=
  '"' :: s ++ ['"']

/-! ## Structural lemmas about the scanner loop -/

/-- Every record produced from line index `i` carries `lineNumber = i + 1`. -/
theorem lineRecord_lineNumber (lines : List (List Char)) (i : Nat) (p : Pattern)
    (h : lineRecord lines i = some p) : p.lineNumber = i + 1 := by
  unfold lineRecord at h
  dsimp only at h
  repeat' split at h
  all_goals simp_all
  all_goals (subst h; rfl)

/-- The outer loop is the `filterMap` of the per-line scan over the
remaining line indices. -/
theorem extractFrom_eq_filterMap (lines : List (List Char)) (fuel i : Nat) :
    extractFrom lines i fuel = (List.range fuel).filterMap (fun k => lineRecord lines (i + k)) := by
  induction fuel generalizing i with
  | zero => rfl
  | succ n ih =>
    rw [List.range_succ_eq_map, List.filterMap_cons]
    show (match lineRecord lines i with
          | some p => [p]
          | none => []) ++ extractFrom lines (i + 1) n = _
    rw [ih, List.filterMap_map]
    have hf : ((fun k => lineRecord lines (i + k)) ∘ Nat.succ) =
        fun k => lineRecord lines ((i + 1) + k) := by
      funext k
      show lineRecord lines (i + (k + 1)) = lineRecord lines ((i + 1) + k)
      congr 1
      omega
    rw [hf]
    cases hl : lineRecord lines (i + 0) <;> rw [Nat.add_zero] at hl <;> simp [hl]

/-- The extractor is the per-line scan filter-mapped over all line indices. -/
theorem extract_eq_filterMap (content : List Char) :
    extractStreamPatterns content =
      (List.range (docLines content).length).filterMap
        (fun k => lineRecord (docLines content) k) := by
  unfold extractStreamPatterns
  rw [extractFrom_eq_filterMap]
  simp

/-- The extractor's output has strictly increasing line numbers: the outer
loop visits lines in order and each line contributes at most one record. -/
theorem extract_pairwise_lt (content : List Char) :
    (extractStreamPatterns content).Pairwise (fun p q => p.lineNumber < q.lineNumber) := by
  rw [extract_eq_filterMap]
  refine List.Pairwise.filterMap _ ?_ (List.pairwise_lt_range _)
  intro a a' hlt b hb b' hb'
  have h1 := lineRecord_lineNumber _ _ _ (Option.mem_def.mp hb)
  have h2 := lineRecord_lineNumber _ _ _ (Option.mem_def.mp hb')
  omega

/-- Length of a `filterMap` as a count of indices where the function hits. -/
theorem length_filterMap_eq_countP {α β : Type} (f : α → Option β) (l : List α) :
    (l.filterMap f).length = l.countP (fun a => (f a).isSome) := by
  induction l with
  | nil => rfl
  | cons a t ih =>
    rw [List.filterMap_cons]
    cases h : f a <;> simp [List.countP_cons, h, ih]

/-! ## Lemmas about the CSV escaping pipeline -/

/-- Whitespace surviving whitespace-run collapsing is a single space. -/
theorem collapseWsAux_space_eq (l : List Char) :
    ∀ (b : Bool) (c : Char), c ∈ collapseWsAux b l → isJsSpace c = true → c = ' ' := by
  induction l with
  | nil => intro b c hc; simp [collapseWsAux] at hc
  | cons ch rest ih =>
    intro b c hc hsp
    unfold collapseWsAux at hc
    by_cases h1 : isJsSpace ch = true
    · simp [h1] at hc
      by_cases h2 : b = true
      · subst h2; simp at hc; exact ih _ _ hc hsp
      · have : b = false := by revert h2; cases b <;> simp
        subst this; simp at hc
        rcases hc with h | h
        · exact h
        · exact ih _ _ h hsp
    · have h1' : isJsSpace ch = false := by revert h1; cases isJsSpace ch <;> simp
      simp [h1'] at hc
      rcases hc with h | h
      · subst h; rw [hsp] at h1'; cases h1'
      · exact ih _ _ h hsp

/-- Trimming only removes characters. -/
theorem mem_jsTrim (c : Char) (l : List Char) (h : c ∈ jsTrim l) : c ∈ l := by
  unfold jsTrim at h
  rw [List.mem_reverse] at h
  have h2 := (List.dropWhile_sublist _).mem h
  rw [List.mem_reverse] at h2
  exact (List.dropWhile_sublist _).mem h2

/-- Quote doubling only inserts double-quote characters. -/
theorem mem_doubleQuotes (c : Char) (l : List Char) (h : c ∈ doubleQuotes l) :
    c = '"' ∨ c ∈ l := by
  unfold doubleQuotes at h
  rw [List.mem_flatMap] at h
  obtain ⟨a, ha, hc⟩ := h
  by_cases h1 : a = '"'
  · subst h1; simp at hc; subst hc; exact Or.inl rfl
  · simp [h1] at hc; subst hc; exact Or.inr ha

/-- The only whitespace character in an escaped CSV field is the plain
space: internal newlines (and all other whitespace runs) are collapsed. -/
theorem escapeCsv_space_only (s : List Char) :
    ((escapeCsvValue (some s)).all (fun c => !isJsSpace c || c == ' ')) = true := by
  rw [List.all_eq_true]
  intro c hc
  simp only [escapeCsvValue] at hc
  rcases List.mem_cons.mp hc with h | h
  · subst h; decide
  · rcases List.mem_append.mp h with h | h
    · rcases mem_doubleQuotes _ _ h with h | h
      · subst h; decide
      · have h2 := mem_jsTrim _ _ h
        by_cases hsp : isJsSpace c = true
        · have := collapseWsAux_space_eq _ false c h2 hsp
          subst this; decide
        · simp [hsp]
    · simp at h; subst h; decide

/-- Quote doubling exactly doubles the number of double-quotes. -/
theorem count_doubleQuotes (l : List Char) :
    (doubleQuotes l).count '"' = 2 * l.count '"' := by
  induction l with
  | nil => rfl
  | cons a t ih =>
    unfold doubleQuotes at *
    rw [List.flatMap_cons, List.count_append, ih, List.count_cons]
    by_cases h : a = '"'
    · subst h; simp; omega
    · have hb : (a == '"') = false := by simp [h]
      simp [h, hb, List.count_singleton]

/-- An escaped CSV field contains the two wrapping quotes plus two quotes
for every internal quote of the cleaned value. -/
theorem escapeCsv_count (s : List Char) :
    (escapeCsvValue (some s)).count '"' = 2 + 2 * (csvCleanValue s).count '"' := by
  simp only [escapeCsvValue]
  rw [List.count_append, List.count_cons, count_doubleQuotes]
  simp
  omega

/-! ## The claims -/

/-- Claim C1, counterexample: the claim promises one record for the
`stream`/`setAlert` idiom "regardless of formatting variation (spacing,
line breaks, quote style)".  The line-scan extractor requires the key
literal on the same line as `.stream(`: with a line break between
`.stream(` and `'x.y.z'` (and a fully well-formed `setAlert` in the
window) it returns no record at all. -/
theorem claim_C1_counterexample :
    extractStreamPatterns (strToL "this.translateService.stream(\n  'x.y.z', x).subscribe(v => this.alertService.setAlert(a, b, 'container', d, AlertType.ERROR));") = [] := by
  decide

/-- Claim C1, amended: when the key literal of the `stream` call stays on
the same line as `.stream(` (with a quote character whose first occurrence
after `.stream(` delimits the key) and the `setAlert` argument list through
its fifth argument lies on one line within the 20-line window, the
extractor returns exactly one record with `translationKey="x.y.z"`,
`alertContainer="container"`, `alertType="AlertType.ERROR"`; spacing,
single- versus double-quote style and the position of `setAlert` inside the
window may vary (four representative formatting variants). -/
theorem claim_C1 :
    extractStreamPatterns (strToL "this.translateService.stream('x.y.z', this.o).subscribe(v => this.alertService.setAlert(a, b, 'container', d, AlertType.ERROR));") =
      [⟨strToL "x.y.z", strToL "container", strToL "AlertType.ERROR", 1,
        strToL "stream(x.y.z) -> setAlert(..., container, ..., AlertType.ERROR)"⟩] ∧
    extractStreamPatterns (strToL "x.stream(   'x.y.z'  ).subscribe( v => y.setAlert( a ,  b ,  'container' ,  d ,  AlertType.ERROR ) ) ;") =
      [⟨strToL "x.y.z", strToL "container", strToL "AlertType.ERROR", 1,
        strToL "stream(x.y.z) -> setAlert(..., container, ..., AlertType.ERROR)"⟩] ∧
    extractStreamPatterns (strToL "this.translateService.stream(\"x.y.z\").subscribe(v => \x7b\n  this.alertService.setAlert(a, b, 'container', d, AlertType.ERROR);\n\x7d);") =
      [⟨strToL "x.y.z", strToL "container", strToL "AlertType.ERROR", 1,
        strToL "stream(x.y.z) -> setAlert(..., container, ..., AlertType.ERROR)"⟩] ∧
    extractStreamPatterns (strToL "s.stream('x.y.z', x)\n  .subscribe(v =>\n    t.setAlert(a, b, 'container', d, AlertType.ERROR));") =
      [⟨strToL "x.y.z", strToL "container", strToL "AlertType.ERROR", 1,
        strToL "stream(x.y.z) -> setAlert(..., container, ..., AlertType.ERROR)"⟩] :=
  ⟨by decide, by decide, by decide, by decide⟩

/-- Claim C2: for every input text the extractor returns exactly one record
per line on which the scan succeeds (so N records for N well-formed
occurrences on distinct lines and none for malformed ones), and the output
line numbers are strictly increasing, i.e. the sequence is sorted in
ascending order of `lineNumber`. -/
theorem claim_C2 : ∀ content : List Char,
    (extractStreamPatterns content).length =
      (List.range (docLines content).length).countP
        (fun i => (lineRecord (docLines content) i).isSome) ∧
    (extractStreamPatterns content).Pairwise (fun p q => p.lineNumber < q.lineNumber) := by
  intro content
  refine ⟨?_, extract_pairwise_lt content⟩
  rw [extract_eq_filterMap, length_filterMap_eq_countP]

/-- Claim C3: for every input text, no two records in the extractor's
output share both the same `lineNumber` and the same translation key (the
line numbers are in fact pairwise distinct). -/
theorem claim_C3 : ∀ content : List Char,
    (extractStreamPatterns content).Pairwise
      (fun p q => ¬(p.lineNumber = q.lineNumber ∧ p.a = q.a)) := by
  intro content
  refine (extract_pairwise_lt content).imp ?_
  intro p q h
  rintro ⟨he, -⟩
  omega

/-- Claim C4, counterexample: on an input whose idiom is preceded by a
multi-line block comment, the line-scan extractor reports line 3 — the line
in the ORIGINAL text — while scanning the comment-stripped text (as the
claim demands) would report line 2: this extractor does not strip comments
before scanning. -/
theorem claim_C4_counterexample :
    (extractStreamPatterns (strToL "/* line1\nline2 */\na.stream('x.y.z').subscribe(v => b.setAlert(p, q, 'c', d, T));")).map Pattern.lineNumber = [3] ∧
    (extractStreamPatterns (stripComments (strToL "/* line1\nline2 */\na.stream('x.y.z').subscribe(v => b.setAlert(p, q, 'c', d, T));"))).map Pattern.lineNumber = [2] :=
  ⟨by decide, by decide⟩

/-- Claim C4, amended: the regex-based extractors (`extract-banner-ids.js`,
`part_000`) strip block comments (`/* … */`, non-greedy, multi-line) and
line comments (`//` to end-of-line) before scanning — embodied by
`stripComments`, shown here removing both comment forms — and compute line
numbers against the stripped text; the line-scan extractor of `part_001`
performs no comment stripping: it scans the raw text, reports line numbers
against the original text, and even matches an idiom inside a line comment
that stripping would remove. -/
theorem claim_C4 :
    stripComments (strToL "x // c\ny /* z */ w") = strToL "x \ny  w" ∧
    stripComments (strToL "/* line1\nline2 */\na.stream('x.y.z').subscribe(v => b.setAlert(p, q, 'c', d, T));") =
      strToL "\na.stream('x.y.z').subscribe(v => b.setAlert(p, q, 'c', d, T));" ∧
    (extractStreamPatterns (strToL "// a.stream('x.y.z').subscribe(v => b.setAlert(p, q, 'c', d, T));")).map Pattern.lineNumber = [1] ∧
    extractStreamPatterns (stripComments (strToL "// a.stream('x.y.z').subscribe(v => b.setAlert(p, q, 'c', d, T));")) = [] :=
  ⟨by decide, by decide, by decide, by decide⟩

/-- Claim C5: the extractor is a total function on text; a pattern record
appears in the output exactly when some line index fully matches the idiom
(so unmatched or partially-matched idioms contribute no record), and on
concrete malformed inputs — a `stream` call with no paired `setAlert`, cut-off
garbage, and a `setAlert` whose third argument is not a string literal — it
returns the empty list rather than failing. -/
theorem claim_C5 :
    (∀ (content : List Char) (p : Pattern),
        p ∈ extractStreamPatterns content ↔
          ∃ i, i < (docLines content).length ∧ lineRecord (docLines content) i = some p) ∧
    extractStreamPatterns (strToL "x.stream('k.z') with no paired alert call") = [] ∧
    extractStreamPatterns (strToL "((((.stream(.setAlert(,,,,)garbage") = [] ∧
    extractStreamPatterns (strToL "a.stream('x').subscribe(v => b.setAlert(a, b, c, d, e));") = [] := by
  refine ⟨?_, by decide, by decide, by decide⟩
  intro content p
  rw [extract_eq_filterMap, List.mem_filterMap]
  constructor
  · rintro ⟨i, hi, h⟩
    exact ⟨i, List.mem_range.mp hi, h⟩
  · rintro ⟨i, hi, h⟩
    exact ⟨i, List.mem_range.mpr hi, h⟩

/-- Claim C6, code evaluation at the failing input: a `setAlert` call with
only THREE top-level arguments — `setAlert(g(1,2), 'c', h(3,4))` — is split
on every comma into five fragments, passes the `parts.length >= 5` check,
and produces a record (with the meaningless alert type `"4"`), where the
claim requires zero records for fewer than five top-level arguments. -/
theorem claim_C6 :
    extractStreamPatterns (strToL "a.stream('x.y.z').subscribe(v => b.setAlert(g(1,2), 'c', h(3,4)));") =
      [⟨strToL "x.y.z", strToL "c", strToL "4", 1,
        strToL "stream(x.y.z) -> setAlert(..., c, ..., 4)"⟩] := by
  decide

/-- Claim C7: flattening `{"a": {"b": "v1", "c": {"d": "v2"}}}` yields
exactly `{"a.b": "v1", "a.c.d": "v2"}`, and an array-valued node is always
stored as a leaf under its full dotted key, never recursed into. -/
theorem claim_C7 :
    flattenTranslationKeys
        [("a", Json.obj [("b", Json.str "v1"), ("c", Json.obj [("d", Json.str "v2")])])] "" [] =
      [("a.b", Json.str "v1"), ("a.c.d", Json.str "v2")] ∧
    ∀ (pre : String) (res : List (String × Json)) (k : String) (xs : List Json)
      (rest : List (String × Json)),
      flattenTranslationKeys ((k, Json.arr xs) :: rest) pre res =
        flattenTranslationKeys rest pre
          (objAssign res (if pre ≠ "" then pre ++ "." ++ k else k) (Json.arr xs)) := by
  constructor
  · simp [flattenTranslationKeys, objAssign]
  · intro pre res k xs rest
    rw [flattenTranslationKeys]
    intro fs h
    exact Json.noConfusion h

/-- Claim C8: for every pattern whose translation key is absent from the
flattened dictionary, the produced `AnalysisRecord` has
`hasTranslation = false` and `translationValue = null`. -/
theorem claim_C8 :
    ∀ (translations : List (String × Json)) (p : Pattern) (fp : String),
      objGet translations (String.mk p.a) = none →
      (mkAnalysisRecord translations p fp).hasTranslation = false ∧
      (mkAnalysisRecord translations p fp).translationValue = none := by
  intro t p fp h
  simp [mkAnalysisRecord, h]

/-- Witness for C8: the empty dictionary and the key `"k"`. -/
theorem claim_C8_witness :
    objGet ([] : List (String × Json)) (String.mk (strToL "k")) = none ∧
    ((mkAnalysisRecord [] ⟨strToL "k", [], [], 1, []⟩ "f").hasTranslation = false ∧
     (mkAnalysisRecord [] ⟨strToL "k", [], [], 1, []⟩ "f").translationValue = none) :=
  ⟨rfl, claim_C8 [] ⟨strToL "k", [], [], 1, []⟩ "f" rfl⟩

/-- Claim C10: when the translation key IS present in the dictionary but
maps to a JS-falsy leaf value (such as the empty string), the produced
`AnalysisRecord` still reports `hasTranslation = false` and
`translationValue = null`: the `translations[key] || null` join makes
`hasTranslation` reflect truthiness of the value, not key membership. -/
theorem claim_C10 :
    ∀ (translations : List (String × Json)) (p : Pattern) (fp : String) (v : Json),
      objGet translations (String.mk p.a) = some v → jsTruthy v = false →
      (mkAnalysisRecord translations p fp).hasTranslation = false ∧
      (mkAnalysisRecord translations p fp).translationValue = none := by
  intro t p fp v h hv
  simp [mkAnalysisRecord, h, hv]

/-- Witness for C10: the dictionary maps `"k"` to the empty string, which
is falsy, so the record reports no translation. -/
theorem claim_C10_witness :
    objGet [("k", Json.str "")] (String.mk (strToL "k")) = some (Json.str "") ∧
    jsTruthy (Json.str "") = false ∧
    ((mkAnalysisRecord [("k", Json.str "")] ⟨strToL "k", [], [], 1, []⟩ "f").hasTranslation = false ∧
     (mkAnalysisRecord [("k", Json.str "")] ⟨strToL "k", [], [], 1, []⟩ "f").translationValue = none) :=
  ⟨rfl, rfl, claim_C10 [("k", Json.str "")] ⟨strToL "k", [], [], 1, []⟩ "f" (Json.str "") rfl rfl⟩

/-- Claim C9, counterexample: the CSV writer of `extract-banner-ids.js`
(line 362) interpolates string fields raw between literal double-quotes, so
the value `He said "hi"` is NOT emitted as the claimed `"He said ""hi"""` —
that report leaves internal double-quotes unescaped. -/
theorem claim_C9_counterexample :
    bannerCsvField (strToL "He said \"hi\"") ≠ strToL "\"He said \"\"hi\"\"\"" := by
  decide

/-- Claim C9, amended: for every string field routed through
`escapeCsvValue` (the CSV writer of `part_001`), internal double-quotes are
escaped by doubling and internal newlines are collapsed to single spaces —
in particular `He said "hi"` is emitted as `"He said ""hi"""`, every
whitespace character in the output is a plain space, and the output
contains exactly two wrapping quotes plus two quotes per internal quote of
the cleaned value; the raw CSV writer of `extract-banner-ids.js` does not
escape. -/
theorem claim_C9 :
    escapeCsvValue (some (strToL "He said \"hi\"")) = strToL "\"He said \"\"hi\"\"\"" ∧
    (∀ s : List Char, ((escapeCsvValue (some s)).all (fun c => !isJsSpace c || c == ' ')) = true) ∧
    (∀ s : List Char, (escapeCsvValue (some s)).count '"' = 2 + 2 * (csvCleanValue s).count '"') :=
  ⟨by decide, escapeCsv_space_only, escapeCsv_count⟩
